import Mathlib

/-!
Shallow embedding of the archlog utility (a Go program that turns "svn log"
output into a ChangeLog, resolving Arch Linux author nicks to "Name <email>"
identities scraped from four directory web pages).

The embedding follows the latest revision of the source (archlog 0.5).
Go strings are modelled as Lean `String` values, with the Go standard-library
string operations re-implemented structurally over the character list
(`String.toList`), so that everything evaluates by `decide`/`rfl`.  Go byte
indexing coincides with character indexing on the ASCII inputs considered.
Remote I/O is modelled by an explicit environment (`Env`) giving, per URL,
the result of fetching the page; a Go runtime panic is modelled by the
`GoResult.crash` outcome.
-/

/-- Outcome of a Go computation: a returned value, a returned non-nil
`error` (with its message), or a runtime panic. -/
inductive GoResult (α : Type) where
  | ok (val : α)
  | goErr (msg : String)
  | crash
deriving Repr, DecidableEq

/-- True exactly on the `goErr` outcome (a returned non-nil Go error). -/
def GoResult.isErr {α : Type} : GoResult α → Bool
  | .goErr _ => true
  | _ => false

/-- Does the character list start with the given pattern list? -/
def leadsWith : List Char → List Char → Bool
  | [], _ => true
  | _ :: _, [] => false
  | p :: ps, c :: cs => p = c && leadsWith ps cs

/-- Substring containment on character lists (Go `strings.Contains`). -/
def containsL (pat : List Char) : List Char → Bool
  | [] => pat.isEmpty
  | c :: cs => leadsWith pat (c :: cs) || containsL pat cs

/-- Go `strings.Contains(s, pat)`. -/
def goContains (s pat : String) : Bool := containsL pat.toList s.toList

/-- Membership of a single character (Go `strings.Contains`/`strings.Index
 != -1` with a one-character pattern). -/
def containsChar (c : Char) (s : String) : Bool := s.toList.any (fun x => x = c)

/-- Occurrence count of a single character on a character list. -/
def countCharL (c : Char) : List Char → Nat
  | [] => 0
  | x :: xs => (if x = c then 1 else 0) + countCharL c xs

/-- Number of occurrences of a single character (Go `strings.Count` with a
one-character pattern). -/
def countChar (c : Char) (s : String) : Nat := countCharL c s.toList

/-- Split on a single separator character (Go `strings.Split`/`SplitN`
with count -1 and a one-character separator); always non-empty. -/
def splitOnCharL (c : Char) : List Char → List (List Char)
  | [] => [[]]
  | x :: xs =>
    let r := splitOnCharL c xs
    if x = c then [] :: r
    else
      match r with
      | [] => [[x]]
      | h :: t => (x :: h) :: t

/-- Go `strings.Split(s, sep)` for a one-character separator. -/
def goSplitChar (c : Char) (s : String) : List String :=
  (splitOnCharL c s.toList).map List.asString

/-- Replace the first occurrence of character `c` by `r`
(Go `strings.Replace(s, c, r, 1)` with one-character arguments). -/
def replFirstL (c r : Char) : List Char → List Char
  | [] => []
  | x :: xs => if x = c then r :: xs else x :: replFirstL c r xs

/-- Go `strings.Replace(s, c, r, 1)` with one-character pattern and
replacement. -/
def goReplaceFirstChar (c r : Char) (s : String) : String :=
  (replFirstL c r s.toList).asString

/-- Count of non-overlapping occurrences of two consecutive newlines
(Go `strings.Count(msg, "\n\n")`). -/
def countNNL : List Char → Nat
  | '\n' :: '\n' :: rest => countNNL rest + 1
  | _ :: rest => countNNL rest
  | [] => 0

/-- Go `strings.Count(s, "\n\n")`. -/
def goCountNN (s : String) : Nat := countNNL s.toList

/-- Replace the first occurrence of two consecutive newlines by a single
newline (Go `strings.Replace(msg, "\n\n", "\n", 1)`). -/
def collapseNNL : List Char → List Char
  | '\n' :: '\n' :: rest => '\n' :: rest
  | c :: rest => c :: collapseNNL rest
  | [] => []

/-- Go `strings.Replace(s, "\n\n", "\n", 1)`. -/
def goCollapseNN (s : String) : String := (collapseNNL s.toList).asString

/-- Replace every newline by a newline plus six spaces
(Go `strings.Replace(msg, "\n", "\n      ", -1)`). -/
def indentL : List Char → List Char
  | '\n' :: rest => '\n' :: ' ' :: ' ' :: ' ' :: ' ' :: ' ' :: ' ' :: indentL rest
  | c :: rest => c :: indentL rest
  | [] => []

/-- Go `strings.Replace(s, "\n", "\n      ", -1)`. -/
def goIndentNewlines (s : String) : String := (indentL s.toList).asString

/-- ASCII whitespace recognised by the model of Go `strings.TrimSpace`
(space, tab, newline, vertical tab, form feed, carriage return; the extra
Unicode space code points accepted by Go do not occur in the inputs
considered). -/
def goIsSpace (c : Char) : Bool :=
  c = ' ' || c = '\t' || c = '\n' || c = '\x0B' || c = '\x0C' || c = '\r'

/-- Go `strings.TrimSpace`. -/
def goTrimSpace (s : String) : String :=
  (((s.toList.dropWhile goIsSpace).reverse.dropWhile goIsSpace).reverse).asString

/-- ASCII lower-casing of one character; Go `strings.ToLower` is applied
only to ASCII data in the inputs considered. -/
def goToLowerChar (c : Char) : Char :=
  if 'A' ≤ c ∧ c ≤ 'Z' then Char.ofNat (c.toNat + 32) else c

/-- Go `strings.ToLower` (ASCII model). -/
def goToLower (s : String) : String := (s.toList.map goToLowerChar).asString

/-- Index of the first occurrence of a character (Go `strings.Index` with a
one-character pattern), `none` when absent. -/
def idxOfCharL (c : Char) : List Char → Option Nat
  | [] => none
  | x :: xs => if x = c then some 0 else (idxOfCharL c xs).map (· + 1)

/-- Index of the last occurrence of a character (Go `strings.LastIndex`
with a one-character pattern), `none` when absent. -/
def lastIdxOfCharL (c : Char) (l : List Char) : Option Nat :=
  (idxOfCharL c l.reverse).map (fun i => l.length - 1 - i)

/-- Transliteration table for nick generation (source `mapRunes`): ASCII
letters pass through; a fixed set of accented letters maps to o, r, a, e;
everything else maps to an underscore. -/
def mapRunes (letter : Char) : Char :=
  if ('A' ≤ letter ∧ letter ≤ 'Z') ∨ ('a' ≤ letter ∧ letter ≤ 'z') then letter
  else
    match letter with
    | 'ø' | 'ö' => 'o'
    | 'Р' | 'ð' => 'r'
    | 'ä' | 'Á' | 'á' => 'a'
    | 'é' => 'e'
    | _ => '_'

/-- Source `generateNick`: derive a nick from a display name.  A name with
no space is returned unchanged.  When the name contains both parentheses,
only the substring strictly between the first open and the last close
parenthesis is used (Go `name[a+1 : b]` byte slicing; `crash` when the
bounds are inverted).  The result is the first character of the first
space-separated token prepended to the last token, transliterated,
lower-cased, with underscores removed; an empty first token makes
`firstname[0]` an out-of-range index, a runtime panic (`crash`). -/
def generateNick (name : String) : GoResult String :=
  let cs := name.toList
  if containsChar ' ' name then
    let step : GoResult (List (List Char)) :=
      if containsChar '(' name && containsChar ')' name then
        match idxOfCharL '(' cs, lastIdxOfCharL ')' cs with
        | some a, some b =>
          if b < a + 1 then .crash
          else .ok (splitOnCharL ' ' ((cs.take b).drop (a + 1)))
        | _, _ => .crash
      else .ok (splitOnCharL ' ' cs)
    match step with
    | .crash => .crash
    | .goErr m => .goErr m
    | .ok names =>
      let firstname := names.headD []
      let lastname := names.getLastD []
      match firstname with
      | [] => .crash
      | f0 :: _ =>
        .ok ((((f0 :: lastname).map mapRunes).map goToLowerChar).filter
              (fun c => c ≠ '_')).asString
  else .ok name

/-- Email normalization as written inline in source `nickToNameAndEmailWithUrl`
(line 198-201): when the scraped value has no at sign but has at least one
dot, the first dot is replaced by an at sign. -/
def normEmailScan (email : String) : String :=
  if !containsChar '@' email && containsChar '.' email then
    goReplaceFirstChar '.' '@' email
  else email

/-- Email normalization as written inline in source `nameToEmailWithUrl`
(line 300-305): when the scraped value has no at sign and has more than one
dot, the first dot is replaced by an at sign. -/
def normEmailLabeled (email : String) : String :=
  if !containsChar '@' email then
    if 1 < countChar '.' email then goReplaceFirstChar '.' '@' email else email
  else email

/-- Mutable scan state of the tag loop in source `nickToNameAndEmailWithUrl`. -/
structure ScanState where
  name : String
  email : String
  counter : Int
  emailIdx : Int
  found : Bool
deriving Repr, DecidableEq

/-- The tag loop of source `nickToNameAndEmailWithUrl` (lines 183-208): the
fetched body is split on the character "<" and the pieces are walked with a
bounded look-ahead counter that is armed to 30 by a schema.org/Person
marker.  `Split(tag, quote)[3]` and `Split(tag, gt)[1]` are Go index
expressions that panic (`crash`) when the split has too few pieces. -/
def personScanLoop (nick : String) : List String → Int → ScanState → GoResult ScanState
  | [], _, st => .ok st
  | tag :: rest, i, st =>
    let st :=
      if goContains tag "schema.org/Person" then
        { st with name := "", email := "", counter := 30 }
      else st
    if st.counter > 0 then
      if goContains tag "itemprop=\"name" && !goContains tag "Arch Linux" then
        match (goSplitChar '"' tag).get? 3 with
        | none => .crash
        | some nm =>
          personScanLoop nick rest (i + 1) { st with name := nm, counter := st.counter - 1 }
      else if goContains tag nick then
        personScanLoop nick rest (i + 1) { st with found := true, counter := st.counter - 1 }
      else if goContains tag "Email" then
        personScanLoop nick rest (i + 1) { st with emailIdx := i + 2, counter := st.counter - 1 }
      else if i = st.emailIdx then
        match (goSplitChar '>' tag).get? 1 with
        | none => .crash
        | some e0 =>
          let e := normEmailScan e0
          if st.found then .ok { st with email := e }
          else personScanLoop nick rest (i + 1) { st with email := e, counter := st.counter - 1 }
      else personScanLoop nick rest (i + 1) { st with counter := st.counter - 1 }
    else personScanLoop nick rest (i + 1) st

/-- Source `nickToNameAndEmailWithUrl`: fetch a directory page and scan it
for a schema.org/Person block matching the nick.  A failed HTTP get or body
read is returned as a Go error (`goErr`); on a match the result is
"Name <email>", otherwise the "Could not find nick" error. -/
def nickToNameAndEmailWithUrl (nick : String) (fetched : Option String) : GoResult String :=
  match fetched with
  | none => .goErr "Could not retrieve"
  | some body =>
    match personScanLoop nick (goSplitChar '<' body) 0 ⟨"", "", 0, -1, false⟩ with
    | .crash => .crash
    | .goErr m => .goErr m
    | .ok st =>
      if st.found then .ok (st.name ++ " <" ++ st.email ++ ">")
      else .goErr "Could not find nick"

/-- Abstract model of the Go `text/scanner` tokenizer handed out by source
`getWebPageTokenizer`: `cur` is the current `TokenText()` value (initially
empty, before anything is consumed) and `rest` the texts still to come.
`Skip`/`Next` advances by one token. -/
structure TokStream where
  cur : String
  rest : List String
deriving Repr, DecidableEq

/-- Advance by one token (source `Skip(tokenizer, 1)`); `none` when the
stream is at EOF, which makes `Skip` return false. -/
def skip1 (ts : TokStream) : Option TokStream :=
  match ts.rest with
  | [] => none
  | t :: rem => some ⟨t, rem⟩

/-- Advance by `n` tokens (source `Skip(tokenizer, n)`). -/
def skipN : Nat → TokStream → Option TokStream
  | 0, ts => some ts
  | n + 1, ts =>
    match skip1 ts with
    | none => none
    | some ts2 => skipN n ts2

/-- Advance until `TokenText()` equals the label (the source loops
`text := ""; for text != lbl { Skip 1; text = TokenText() }`; the loop body
always runs at least once because `text` starts empty). -/
def scanUntilAux (lbl : String) : List String → Option TokStream
  | [] => none
  | t :: rem => if t = lbl then some ⟨t, rem⟩ else scanUntilAux lbl rem

/-- Label-seeking scan from the current stream position. -/
def scanUntil (lbl : String) (ts : TokStream) : Option TokStream :=
  scanUntilAux lbl ts.rest

/-- The loop of source `nickToNameFromListBox` (lines 225-242): one token
is consumed per iteration; on the token "option" the code reads
`TokenText()` a second time without advancing, so `foundnick` is that same
token text. -/
def listBoxLoop (nick : String) : List String → GoResult String
  | [] => .goErr "Out of tokens"
  | t :: rem =>
    if t = "option" then
      if nick ≠ t then listBoxLoop nick rem
      else
        match rem with
        | [] => .goErr "Out of tokens"
        | nm :: _ => .ok nm
    else listBoxLoop nick rem

/-- Source `nickToNameFromListBox`: when the HTTP get fails,
`getWebPageTokenizer` returns a nil tokenizer and nil body; the immediately
following `Skip` dereferences the nil tokenizer (as does the deferred
`body.Close()`), a runtime panic, modelled by `crash`. -/
def nickToNameFromListBox (nick : String) (fetched : Option TokStream) : GoResult String :=
  match fetched with
  | none => .crash
  | some ts => listBoxLoop nick ts.rest

/-- The loop of source `nameToEmailWithUrl` (lines 252-309).  The fuel
argument only bounds the number of outer-loop iterations; every iteration
consumes at least one token, so with fuel `rest.length + 1` the fuel case
is unreachable (it is given the same "Out of tokens" result the genuine
exhaustion cases produce). -/
def nameToEmailLoop (fullname : String) : Nat → TokStream → GoResult String
  | 0, _ => .goErr "Out of tokens"
  | fuel + 1, ts =>
    match skip1 ts with
    | none => .goErr "Out of tokens"
    | some ts1 =>
      if ts1.cur = "a" then
        match scanUntil "Name:" ts1 with
        | none => .goErr "Out of tokens"
        | some ts2 =>
          match skipN 4 ts2 with
          | none => .goErr "Out of tokens"
          | some ts3 =>
            if goToLower ts3.cur ≠ goToLower fullname then
              nameToEmailLoop fullname fuel ts3
            else
              match scanUntil "Alias:" ts3 with
              | none => .goErr "Out of tokens"
              | some ts4 =>
                match skipN 4 ts4 with
                | none => .goErr "Out of tokens"
                | some ts5 =>
                  match scanUntil "Email:" ts5 with
                  | none => .goErr "Out of tokens"
                  | some ts6 =>
                    match skipN 4 ts6 with
                    | none => .goErr "Out of tokens"
                    | some ts7 => .ok (normEmailLabeled ts7.cur)
      else nameToEmailLoop fullname fuel ts1

/-- Source `nameToEmailWithUrl`: find an email by full display name on a
label-structured page.  As in `nickToNameFromListBox`, a failed HTTP get
yields a nil tokenizer that the function dereferences: a runtime panic. -/
def nameToEmailWithUrl (fullname : String) (fetched : Option TokStream) : GoResult String :=
  match fetched with
  | none => .crash
  | some ts => nameToEmailLoop fullname (ts.rest.length + 1) ts

/-- The four remote directory endpoints (source constants TU_URL, DEV_URL,
FEL_URL, PKG_URL). -/
inductive Url where
  | tu | dev | fel | pkg
deriving Repr, DecidableEq

/-- Environment modelling the network: per URL, `rawBody` is the result of
an HTTP get plus full body read (`none` = transport or read error), and
`tokens` is the token stream a `text/scanner` tokenizer yields on the page
(`none` = transport error, i.e. `getWebPageTokenizer` returns nil). -/
structure Env where
  rawBody : Url → Option String
  tokens : Url → Option TokStream

/-- The process-wide nick cache (source global `nickCache`); the source
scans the map by iterating its entries, modelled by an association list. -/
abbrev Cache := List (String × String)

/-- Cache lookup (the `for key, value := range nickCache` scan). -/
def cacheLookup : Cache → String → Option String
  | [], _ => none
  | p :: rest, k => if p.1 = k then some p.2 else cacheLookup rest k

/-- Cache write `nickCache[nick] = value`; the source only writes keys that
just missed, so appending preserves map semantics. -/
def cacheInsert (c : Cache) (k v : String) : Cache := c ++ [(k, v)]

/-- Result of one resolver call: the outcome, the cache afterwards, and the
list of remote fetches performed, in order. -/
structure ResolveOut where
  res : GoResult String
  cache : Cache
  fetches : List Url
deriving Repr, DecidableEq

/-- Source `nickToNameAndEmail` (lines 313-367): cascading fallback over
the four sources, first success wins; a bare name found via the package
list box triggers two secondary full-name lookups (trusted users, then
developers); on total exhaustion the nick itself is returned; every
returned outcome is written to the cache first.  A panic in a sub-lookup
aborts everything (`crash`). -/
def nickToNameAndEmail (env : Env) (cache : Cache) (nick : String) : ResolveOut :=
  match cacheLookup cache nick with
  | some v => ⟨.ok v, cache, []⟩
  | none =>
    match nickToNameAndEmailWithUrl nick (env.rawBody .tu) with
    | .crash => ⟨.crash, cache, [.tu]⟩
    | .ok ne => ⟨.ok ne, cacheInsert cache nick ne, [.tu]⟩
    | .goErr _ =>
      match nickToNameAndEmailWithUrl nick (env.rawBody .dev) with
      | .crash => ⟨.crash, cache, [.tu, .dev]⟩
      | .ok ne => ⟨.ok ne, cacheInsert cache nick ne, [.tu, .dev]⟩
      | .goErr _ =>
        match nickToNameFromListBox nick (env.tokens .pkg) with
        | .crash => ⟨.crash, cache, [.tu, .dev, .pkg]⟩
        | .ok nm =>
          match nameToEmailWithUrl nm (env.tokens .tu) with
          | .crash => ⟨.crash, cache, [.tu, .dev, .pkg, .tu]⟩
          | .ok em =>
            let full := nm ++ " <" ++ em ++ ">"
            ⟨.ok full, cacheInsert cache nick full, [.tu, .dev, .pkg, .tu]⟩
          | .goErr _ =>
            match nameToEmailWithUrl nm (env.tokens .dev) with
            | .crash => ⟨.crash, cache, [.tu, .dev, .pkg, .tu, .dev]⟩
            | .ok em =>
              let full := nm ++ " <" ++ em ++ ">"
              ⟨.ok full, cacheInsert cache nick full, [.tu, .dev, .pkg, .tu, .dev]⟩
            | .goErr _ =>
              ⟨.ok nm, cacheInsert cache nick nm, [.tu, .dev, .pkg, .tu, .dev]⟩
        | .goErr _ =>
          match nickToNameAndEmailWithUrl nick (env.rawBody .fel) with
          | .crash => ⟨.crash, cache, [.tu, .dev, .pkg, .fel]⟩
          | .ok ne => ⟨.ok ne, cacheInsert cache nick ne, [.tu, .dev, .pkg, .fel]⟩
          | .goErr _ => ⟨.ok nick, cacheInsert cache nick nick, [.tu, .dev, .pkg, .fel]⟩

/-- Environment in which every raw-body fetch errors and every tokenized
page is retrieved but empty: all four sources fail without panicking. -/
def envAllFail : Env := ⟨fun _ => none, fun _ => some ⟨"", []⟩⟩

/-- Environment in which the network is entirely down: raw-body fetches
error, and the tokenizer-based fetches return nil tokenizers. -/
def envTokensDown : Env := ⟨fun _ => none, fun _ => none⟩

/-- One svn log entry as unmarshalled from the xml (source `LogEntry`). -/
structure LogEntry where
  revision : String
  author : String
  date : String
  msg : String
deriving Repr, DecidableEq

/-- Source `prettyDate`: keep only the part before the first "T"
(`strings.Split(date, "T")[0]`; the split is never empty). -/
def prettyDate (date : String) : String :=
  match goSplitChar 'T' date with
  | [] => ""
  | d :: _ => d

/-- The per-message formatting steps of source `outputLog` (lines 396-402),
applied to the already trimmed, non-empty message: prepend the bullet
marker, remove the blank line when the bulleted message contains exactly
one occurrence of two consecutive newlines, then indent every remaining
newline with six spaces of continuation indent. -/
def formatMessage (trimmed : String) : String :=
  let msg := "    * " ++ trimmed
  let msg := if goCountNN msg = 1 then goCollapseNN msg else msg
  goIndentNewlines msg

/-- Loop state of source `outputLog`: the `first` flag, the gathered
messages of the current group, the previous date, resolved name and header,
the resolver cache, and the lines printed so far (arguments of the
`fmt.Println` calls, in order). -/
structure OutSt where
  first : Bool
  msgitems : List String
  prevdate : String
  prevname : String
  prevheader : String
  cache : Cache
  out : List String
deriving Repr, DecidableEq

/-- The entry loop of source `outputLog` (lines 387-434).  Entries with an
empty trimmed message are skipped (the resolver cache update still
happens, as in the source, where the resolver runs before the emptiness
check).  On a (date, name) change the gathered group is flushed in reverse
accumulation order; a header is printed whenever the combined header
changes, preceded by a blank line except the first time (the source prints
the string "\n" ++ header). -/
def outputLogLoop (env : Env) : List LogEntry → OutSt → GoResult OutSt
  | [], st => .ok st
  | e :: rest, st =>
    let date := prettyDate e.date
    let r := nickToNameAndEmail env st.cache e.author
    match r.res with
    | .crash => .crash
    | .goErr m => .goErr m
    | .ok name =>
      let st := { st with cache := r.cache }
      let msg0 := goTrimSpace e.msg
      let header := date ++ " " ++ name
      if msg0 = "" then outputLogLoop env rest st
      else
        let msg := formatMessage msg0
        let st :=
          if date ≠ st.prevdate ∨ name ≠ st.prevname then
            if st.msgitems ≠ [] then
              { st with out := st.out ++ st.msgitems.reverse, msgitems := [], first := false }
            else st
          else st
        let st :=
          if ¬ st.first ∧ header ≠ st.prevheader then
            { st with out := st.out ++ ["\n" ++ header] }
          else if st.first ∧ header ≠ st.prevheader then
            { st with out := st.out ++ [header] }
          else st
        outputLogLoop env rest
          { st with msgitems := st.msgitems ++ [msg],
                    prevdate := date, prevname := name, prevheader := header }

/-- The assembling part of source `outputLog`: run the entry loop from the
initial state (empty cache: the global `nickCache` starts out nil) and
flush any final gathered group in reverse order followed by an empty
`fmt.Println()` line. -/
def outputLog (env : Env) (entries : List LogEntry) : GoResult (List String) :=
  match outputLogLoop env entries ⟨true, [], "", "", "", [], []⟩ with
  | .crash => .crash
  | .goErr m => .goErr m
  | .ok st =>
    .ok (if st.msgitems ≠ [] then st.out ++ st.msgitems.reverse ++ [""] else st.out)

/-- Source `getSvnLog` (lines 80-93), with the svn subprocess and
`xml.Unmarshal` modelled by explicit inputs: `cmdOut` is the subprocess
result (`none` = the command returned an error, in which case the byte
slice is empty) and `unmarshal` the xml decoder on those bytes.  The error
from the subprocess is discarded — `err` is immediately reassigned by the
`xml.Unmarshal` call — and an unmarshal error is printed to standard output
("error: %v") while the function returns an empty entry list and a nil
error.  Result: (printed output, entries, whether the returned error is
non-nil — which is never the case). -/
def getSvnLog (unmarshal : String → Except String (List LogEntry))
    (cmdOut : Option String) : List String × List LogEntry × Bool :=
  let xmlbytes := match cmdOut with | none => "" | some b => b
  match unmarshal xmlbytes with
  | .error m => (["error: " ++ m], [], false)
  | .ok entries => ([], entries, false)

/-- Observable outcome of a whole `outputLog` run: what was printed to
standard output, whether `os.Exit(1)` was taken, and whether the run
panicked. -/
structure RunOut where
  stdout : List String
  exitedNonzero : Bool
  panicked : Bool
deriving Repr, DecidableEq

/-- Source `outputLog` including its `getSvnLog` prologue: a non-nil error
from `getSvnLog` would print a diagnostic and `os.Exit(1)` (unreachable,
since `getSvnLog` always returns a nil error); otherwise the entry loop
runs.  The resolver's `goErr` outcome cannot occur either; it is mapped to
the panicked flag alongside `crash`. -/
def runOutputLog (unmarshal : String → Except String (List LogEntry)) (env : Env)
    (cmdOut : Option String) : RunOut :=
  let (printed, entries, isErr) := getSvnLog unmarshal cmdOut
  if isErr then ⟨printed, true, false⟩
  else
    match outputLog env entries with
    | .ok outs => ⟨printed ++ outs, false, false⟩
    | .crash => ⟨printed, false, true⟩
    | .goErr _ => ⟨printed, false, true⟩

/-- A key that missed is found after the corresponding insert. -/
theorem cacheLookup_insert (c : Cache) (k v : String) (h : cacheLookup c k = none) :
    cacheLookup (cacheInsert c k v) k = some v := by
  induction c with
  | nil => simp [cacheInsert, cacheLookup]
  | cons p rest ih =>
    by_cases hk : p.1 = k
    · simp [cacheLookup, hk] at h
    · simp only [cacheLookup, hk, if_false] at h
      simp only [cacheInsert, List.cons_append, cacheLookup, hk, if_false]
      exact ih h

/-- A cache hit short-circuits the resolver: the cached value is returned,
the cache is unchanged and no fetch happens. -/
theorem resolve_cache_hit (env : Env) (cache : Cache) (nick v : String)
    (h : cacheLookup cache nick = some v) :
    nickToNameAndEmail env cache nick = ⟨.ok v, cache, []⟩ := by
  simp [nickToNameAndEmail, h]

/-- Whenever the resolver returns a value, that value has been written into
the returned cache under the nick. -/
theorem resolve_ok_cached (env : Env) (cache : Cache) (nick v : String)
    (h : (nickToNameAndEmail env cache nick).res = .ok v) :
    cacheLookup (nickToNameAndEmail env cache nick).cache nick = some v := by
  cases hc : cacheLookup cache nick with
  | some w =>
    simp only [nickToNameAndEmail, hc] at h ⊢
    cases h
    rfl
  | none =>
    cases hA : nickToNameAndEmailWithUrl nick (env.rawBody .tu) with
    | ok ne =>
      simp only [nickToNameAndEmail, hc, hA] at h ⊢
      cases h
      exact cacheLookup_insert _ _ _ hc
    | crash =>
      simp only [nickToNameAndEmail, hc, hA] at h
      cases h
    | goErr m1 =>
      cases hB : nickToNameAndEmailWithUrl nick (env.rawBody .dev) with
      | ok ne =>
        simp only [nickToNameAndEmail, hc, hA, hB] at h ⊢
        cases h
        exact cacheLookup_insert _ _ _ hc
      | crash =>
        simp only [nickToNameAndEmail, hc, hA, hB] at h
        cases h
      | goErr m2 =>
        cases hC : nickToNameFromListBox nick (env.tokens .pkg) with
        | ok nm =>
          cases hS1 : nameToEmailWithUrl nm (env.tokens .tu) with
          | ok em =>
            simp only [nickToNameAndEmail, hc, hA, hB, hC, hS1] at h ⊢
            cases h
            exact cacheLookup_insert _ _ _ hc
          | crash =>
            simp only [nickToNameAndEmail, hc, hA, hB, hC, hS1] at h
            cases h
          | goErr m3 =>
            cases hS2 : nameToEmailWithUrl nm (env.tokens .dev) with
            | ok em =>
              simp only [nickToNameAndEmail, hc, hA, hB, hC, hS1, hS2] at h ⊢
              cases h
              exact cacheLookup_insert _ _ _ hc
            | crash =>
              simp only [nickToNameAndEmail, hc, hA, hB, hC, hS1, hS2] at h
              cases h
            | goErr m4 =>
              simp only [nickToNameAndEmail, hc, hA, hB, hC, hS1, hS2] at h ⊢
              cases h
              exact cacheLookup_insert _ _ _ hc
        | crash =>
          simp only [nickToNameAndEmail, hc, hA, hB, hC] at h
          cases h
        | goErr m3 =>
          cases hD : nickToNameAndEmailWithUrl nick (env.rawBody .fel) with
          | ok ne =>
            simp only [nickToNameAndEmail, hc, hA, hB, hC, hD] at h ⊢
            cases h
            exact cacheLookup_insert _ _ _ hc
          | crash =>
            simp only [nickToNameAndEmail, hc, hA, hB, hC, hD] at h
            cases h
          | goErr m4 =>
            simp only [nickToNameAndEmail, hc, hA, hB, hC, hD] at h ⊢
            cases h
            exact cacheLookup_insert _ _ _ hc

/-- A positive character count implies membership, on character lists. -/
theorem countCharL_pos_any (c : Char) (l : List Char) (h : 0 < countCharL c l) :
    (l.any fun x => x = c) = true := by
  induction l with
  | nil => simp [countCharL] at h
  | cons x xs ih =>
    by_cases hx : x = c
    · simp [List.any_cons, hx]
    · simp only [countCharL, hx, if_false, Nat.zero_add] at h
      simp [List.any_cons, hx, ih h]

/-- A positive character count implies containment. -/
theorem countChar_pos_contains (c : Char) (s : String) (h : 0 < countChar c s) :
    containsChar c s = true :=
  countCharL_pos_any c s.toList h

/-- Claim C2 (code bug): the claim says every failure mode of a remote
fetch — a network error included — is recovered by advancing to the next
fallback source.  In the code a network error while fetching the package
list-box page makes `getWebPageTokenizer` return a nil tokenizer, which
`nickToNameFromListBox` dereferences: a runtime panic that aborts
resolution instead of advancing.  Concretely, with the network down, an
uncached nick crashes the resolver at the package list-box step (sources A
and B did recover, returning Go errors). -/
theorem claim2_panic_on_network_error :
    nickToNameAndEmailWithUrl "bob" (envTokensDown.rawBody .tu) = .goErr "Could not retrieve" ∧
    nickToNameFromListBox "bob" (envTokensDown.tokens .pkg) = .crash ∧
    (nickToNameAndEmail envTokensDown [] "bob").res = .crash ∧
    (nickToNameAndEmail envTokensDown [] "bob").fetches = [.tu, .dev, .pkg] := by
  decide

/-- Claim C5: on the three entries (2024-01-01, alice, msgA),
(2024-01-01, alice, msgB), (2024-01-02, bob, msgC), supplied oldest-first,
the assembler prints one header for (2024-01-01, alice), then msgB, then
msgA (reverse accumulation order), then a header for (2024-01-02, bob)
— preceded by a blank separator line — then msgC (and a final empty
println).  The identities resolve to the bare handles because every source
fails in `envAllFail`. -/
theorem claim5_grouping :
    outputLog envAllFail
      [⟨"1", "alice", "2024-01-01", "msgA"⟩,
       ⟨"2", "alice", "2024-01-01", "msgB"⟩,
       ⟨"3", "bob", "2024-01-02", "msgC"⟩] =
    .ok ["2024-01-01 alice", "    * msgB", "    * msgA",
         "\n2024-01-02 bob", "    * msgC", ""] := by
  decide

/-- Claim C6 counterexample: the claim states that, uniformly across all
sources, a scraped email with no at sign and exactly one dot is left
unchanged.  The scan site of `nickToNameAndEmailWithUrl` (line 199)
replaces the first dot already when at least one dot is present, so
"a.b" — no at sign, one dot — is rewritten to "a@b". -/
theorem claim6_counterexample :
    containsChar '@' "a.b" = false ∧ countChar '.' "a.b" = 1 ∧
    normEmailScan "a.b" = "a@b" ∧ ("a@b" : String) ≠ "a.b" := by
  decide

/-- Claim C6 amended: the two normalization sites differ.  The label-scan
site (`nameToEmailWithUrl`, lines 300-305) implements the claimed rule
— first dot replaced only when there are two or more dots, values with at
most one dot unchanged — while the person-scan site
(`nickToNameAndEmailWithUrl`, lines 198-201) replaces the first dot
whenever at least one dot is present.  The two sites agree on every value
with two or more dots (and on every dot-free value), but not on values
with exactly one dot. -/
theorem claim6_amended (e : String) (h : containsChar '@' e = false) :
    normEmailLabeled e = (if 1 < countChar '.' e then goReplaceFirstChar '.' '@' e else e) ∧
    normEmailScan e = (if containsChar '.' e then goReplaceFirstChar '.' '@' e else e) ∧
    (1 < countChar '.' e → normEmailScan e = normEmailLabeled e) ∧
    (countChar '.' e ≤ 1 → normEmailLabeled e = e) := by
  refine ⟨by simp [normEmailLabeled, h], by simp [normEmailScan, h], ?_, ?_⟩
  · intro hcnt
    have hcontains : containsChar '.' e = true :=
      countChar_pos_contains '.' e (Nat.lt_of_lt_of_le Nat.zero_lt_one (Nat.le_of_lt hcnt))
    simp [normEmailScan, normEmailLabeled, h, hcontains, hcnt]
  · intro hcnt
    have : ¬ 1 < countChar '.' e := by omega
    simp [normEmailLabeled, h, this]

/-- Claim C6 witness: at "a.b.c" (no at sign, two dots) the labeled rule of
the amended claim applies and both sites produce "a@b.c". -/
theorem claim6_witness :
    normEmailLabeled "a.b.c" = "a@b.c" ∧ normEmailScan "a.b.c" = "a@b.c" := by
  have h := claim6_amended "a.b.c" (by decide)
  refine ⟨?_, ?_⟩
  · rw [h.1]; decide
  · rw [h.2.1]; decide

/-- Claim C7 counterexample: the claim states that
generateNick "Jane (Janey) Doe" is derived from "Janey Doe" and equals
"jdoe".  The code slices only the text strictly between the parentheses
("Janey"), whose single token is both first and last name, giving
"jjaney". -/
theorem claim7_counterexample :
    generateNick "Jane (Janey) Doe" = .ok "jjaney" ∧
    (GoResult.ok "jjaney" : GoResult String) ≠ .ok "jdoe" := by
  decide

/-- Claim C7 amended: generateNick "Jane Doe" = "jdoe"; for
"Jane (Janey) Doe" the nick is derived from the parenthesized substring
"Janey" alone, giving "jjaney" (not "jdoe"); a name containing no space is
returned unchanged; and the transliteration step maps the accented
character ø to o. -/
theorem claim7_amended :
    generateNick "Jane Doe" = .ok "jdoe" ∧
    generateNick "Jane (Janey) Doe" = .ok "jjaney" ∧
    (∀ name : String, containsChar ' ' name = false → generateNick name = .ok name) ∧
    mapRunes 'ø' = 'o' := by
  refine ⟨by decide, by decide, ?_, by decide⟩
  intro name h
  simp [generateNick, h]

/-- Claim C7 witness: the no-space clause of the amended claim at the
concrete name "xyproto". -/
theorem claim7_witness :
    containsChar ' ' "xyproto" = false ∧ generateNick "xyproto" = .ok "xyproto" :=
  ⟨by decide, claim7_amended.2.2.1 "xyproto" (by decide)⟩

/-- Claim C10: generateNick is partial — on the input " Doe", which
contains a space and whose first space-separated token is empty, the Go
expression `firstname[0]` indexes an empty string and panics. -/
theorem claim10_generateNick_crash :
    containsChar ' ' " Doe" = true ∧ generateNick " Doe" = .crash := by
  decide

/-- Claim C8: for a non-empty message, after trimming and bullet-prefixing,
when the message contains exactly one occurrence of two consecutive
newlines (the Go count being non-overlapping) that blank line is removed
before the continuation indentation; with two or more occurrences the
message is only reformatted by replacing each remaining newline with the
continuation indent, all blank lines kept. -/
theorem claim8_blank_lines (m : String) (_h : goTrimSpace m ≠ "") :
    (goCountNN ("    * " ++ goTrimSpace m) = 1 →
      formatMessage (goTrimSpace m) =
        goIndentNewlines (goCollapseNN ("    * " ++ goTrimSpace m))) ∧
    (2 ≤ goCountNN ("    * " ++ goTrimSpace m) →
      formatMessage (goTrimSpace m) =
        goIndentNewlines ("    * " ++ goTrimSpace m)) := by
  constructor
  · intro hc
    simp [formatMessage, hc]
  · intro hc
    have hne : ¬ goCountNN ("    * " ++ goTrimSpace m) = 1 := by omega
    simp [formatMessage, hne]

/-- Claim C8 witness: the one-blank-line clause at the concrete message
"a\n\nb" — the blank line is removed, then the newline is indented. -/
theorem claim8_witness :
    goTrimSpace "a\n\nb" ≠ "" ∧ formatMessage (goTrimSpace "a\n\nb") = "    * a\n      b" := by
  have h := (claim8_blank_lines "a\n\nb" (by decide)).1 (by decide)
  exact ⟨by decide, by rw [h]; decide⟩

/-- Claim C9: when the svn subprocess succeeds but its output fails to
unmarshal as xml, `getSvnLog` prints the unmarshal error to standard
output and returns an empty entry list with a nil error; `outputLog` then
treats the run as a success, producing no changelog output and not taking
the `os.Exit(1)` branch, so the process ends with status 0. -/
theorem claim9_invalid_xml (unmarshal : String → Except String (List LogEntry))
    (env : Env) (b msg : String) (h : unmarshal b = .error msg) :
    getSvnLog unmarshal (some b) = (["error: " ++ msg], [], false) ∧
    runOutputLog unmarshal env (some b) = ⟨["error: " ++ msg], false, false⟩ := by
  constructor
  · simp [getSvnLog, h]
  · simp [runOutputLog, getSvnLog, h, outputLog, outputLogLoop]

/-- Claim C9 witness: a concrete unmarshal failure ("EOF") on the body
"bogus" — only the error print appears, no exit(1), no panic. -/
theorem claim9_witness :
    runOutputLog (fun _ => .error "EOF") envAllFail (some "bogus") =
      ⟨["error: EOF"], false, false⟩ :=
  (claim9_invalid_xml (fun _ => .error "EOF") envAllFail "bogus" "EOF" rfl).2

/-- Claim C3: on a cache miss the resolver consults the sources in exactly
the order trusted users (A), developers (B), package list box (C), fellows
(D), stopping at the first success, with the fetch trace showing exactly
the pages consulted; a source-C match yields a bare name followed by two
secondary full-name lookups — A first, then B — whose email, when found, is
appended to the name, the bare name being returned otherwise. -/
theorem claim3_fallback_order (env : Env) (cache : Cache) (nick : String)
    (hmiss : cacheLookup cache nick = none) :
    (∀ v : String,
      nickToNameAndEmailWithUrl nick (env.rawBody .tu) = .ok v →
      nickToNameAndEmail env cache nick = ⟨.ok v, cacheInsert cache nick v, [.tu]⟩) ∧
    (∀ m1 v : String,
      nickToNameAndEmailWithUrl nick (env.rawBody .tu) = .goErr m1 →
      nickToNameAndEmailWithUrl nick (env.rawBody .dev) = .ok v →
      nickToNameAndEmail env cache nick = ⟨.ok v, cacheInsert cache nick v, [.tu, .dev]⟩) ∧
    (∀ m1 m2 nm em : String,
      nickToNameAndEmailWithUrl nick (env.rawBody .tu) = .goErr m1 →
      nickToNameAndEmailWithUrl nick (env.rawBody .dev) = .goErr m2 →
      nickToNameFromListBox nick (env.tokens .pkg) = .ok nm →
      nameToEmailWithUrl nm (env.tokens .tu) = .ok em →
      nickToNameAndEmail env cache nick =
        ⟨.ok (nm ++ " <" ++ em ++ ">"), cacheInsert cache nick (nm ++ " <" ++ em ++ ">"),
         [.tu, .dev, .pkg, .tu]⟩) ∧
    (∀ m1 m2 m3 nm em : String,
      nickToNameAndEmailWithUrl nick (env.rawBody .tu) = .goErr m1 →
      nickToNameAndEmailWithUrl nick (env.rawBody .dev) = .goErr m2 →
      nickToNameFromListBox nick (env.tokens .pkg) = .ok nm →
      nameToEmailWithUrl nm (env.tokens .tu) = .goErr m3 →
      nameToEmailWithUrl nm (env.tokens .dev) = .ok em →
      nickToNameAndEmail env cache nick =
        ⟨.ok (nm ++ " <" ++ em ++ ">"), cacheInsert cache nick (nm ++ " <" ++ em ++ ">"),
         [.tu, .dev, .pkg, .tu, .dev]⟩) ∧
    (∀ m1 m2 m3 m4 nm : String,
      nickToNameAndEmailWithUrl nick (env.rawBody .tu) = .goErr m1 →
      nickToNameAndEmailWithUrl nick (env.rawBody .dev) = .goErr m2 →
      nickToNameFromListBox nick (env.tokens .pkg) = .ok nm →
      nameToEmailWithUrl nm (env.tokens .tu) = .goErr m3 →
      nameToEmailWithUrl nm (env.tokens .dev) = .goErr m4 →
      nickToNameAndEmail env cache nick =
        ⟨.ok nm, cacheInsert cache nick nm, [.tu, .dev, .pkg, .tu, .dev]⟩) ∧
    (∀ m1 m2 m3 v : String,
      nickToNameAndEmailWithUrl nick (env.rawBody .tu) = .goErr m1 →
      nickToNameAndEmailWithUrl nick (env.rawBody .dev) = .goErr m2 →
      nickToNameFromListBox nick (env.tokens .pkg) = .goErr m3 →
      nickToNameAndEmailWithUrl nick (env.rawBody .fel) = .ok v →
      nickToNameAndEmail env cache nick =
        ⟨.ok v, cacheInsert cache nick v, [.tu, .dev, .pkg, .fel]⟩) ∧
    (∀ m1 m2 m3 m4 : String,
      nickToNameAndEmailWithUrl nick (env.rawBody .tu) = .goErr m1 →
      nickToNameAndEmailWithUrl nick (env.rawBody .dev) = .goErr m2 →
      nickToNameFromListBox nick (env.tokens .pkg) = .goErr m3 →
      nickToNameAndEmailWithUrl nick (env.rawBody .fel) = .goErr m4 →
      nickToNameAndEmail env cache nick =
        ⟨.ok nick, cacheInsert cache nick nick, [.tu, .dev, .pkg, .fel]⟩) := by
  refine ⟨?_, ?_, ?_, ?_, ?_, ?_, ?_⟩
  · intro v hA
    simp [nickToNameAndEmail, hmiss, hA]
  · intro m1 v hA hB
    simp [nickToNameAndEmail, hmiss, hA, hB]
  · intro m1 m2 nm em hA hB hC hS1
    simp [nickToNameAndEmail, hmiss, hA, hB, hC, hS1]
  · intro m1 m2 m3 nm em hA hB hC hS1 hS2
    simp [nickToNameAndEmail, hmiss, hA, hB, hC, hS1, hS2]
  · intro m1 m2 m3 m4 nm hA hB hC hS1 hS2
    simp [nickToNameAndEmail, hmiss, hA, hB, hC, hS1, hS2]
  · intro m1 m2 m3 v hA hB hC hD
    simp [nickToNameAndEmail, hmiss, hA, hB, hC, hD]
  · intro m1 m2 m3 m4 hA hB hC hD
    simp [nickToNameAndEmail, hmiss, hA, hB, hC, hD]

/-- Token stream of the package list-box page used by the claim C3
witness: the nick "option" coincides with the tag name the loop looks for,
which is the only way the list-box scan can match, and the following token
is the display name. -/
def pkgToks : TokStream := ⟨"", ["option", "Jane Doe"]⟩

/-- Token stream of a label-structured directory page used by the claim C3
witness: an "a" tag, then "Name:", four tokens to skip, the full name,
"Alias:", four tokens, the alias, "Email:", four tokens, and an obfuscated
email. -/
def tuNameToks : TokStream :=
  ⟨"", ["a", "Name:", "x1", "x2", "x3", "Jane Doe",
        "Alias:", "y1", "y2", "y3", "jdoe",
        "Email:", "z1", "z2", "z3", "jane.doe.example.org"]⟩

/-- Environment for the claim C3 witness: raw-body fetches fail (sources A,
B and D return Go errors), the package page matches the nick "option", and
the trusted-user page answers the secondary full-name lookup. -/
def envListBox : Env :=
  ⟨fun _ => none,
   fun u =>
     match u with
     | .pkg => some pkgToks
     | .tu => some tuNameToks
     | _ => some ⟨"", []⟩⟩

/-- Claim C3 witness: the source-C path at a concrete environment — sources
A and B fail, the list box yields the bare name "Jane Doe", the secondary
trusted-user lookup finds (and normalizes) the email, and the resolver
returns the combined identity having fetched exactly tu, dev, pkg, tu. -/
theorem claim3_witness :
    nickToNameAndEmail envListBox [] "option" =
      ⟨.ok "Jane Doe <jane@doe.example.org>",
       cacheInsert [] "option" "Jane Doe <jane@doe.example.org>",
       [.tu, .dev, .pkg, .tu]⟩ :=
  (claim3_fallback_order envListBox [] "option" rfl).2.2.1
    "Could not retrieve" "Could not retrieve" "Jane Doe" "jane@doe.example.org"
    rfl rfl rfl rfl

/-- Claim C4: the resolver is memoized — whenever it returns a value, that
value (a full identity, a bare name, or the handle itself on exhaustion)
is in the returned cache under the nick, and a second call with that cache
returns the same value, leaves the cache unchanged and performs no remote
fetch at all. -/
theorem claim4_memoized (env : Env) (cache : Cache) (nick v : String)
    (h : (nickToNameAndEmail env cache nick).res = .ok v) :
    cacheLookup (nickToNameAndEmail env cache nick).cache nick = some v ∧
    nickToNameAndEmail env (nickToNameAndEmail env cache nick).cache nick =
      ⟨.ok v, (nickToNameAndEmail env cache nick).cache, []⟩ := by
  have h1 := resolve_ok_cached env cache nick v h
  exact ⟨h1, resolve_cache_hit env _ nick v h1⟩

/-- Claim C4 witness: the exhaustion outcome for "carol" is cached and the
second call is a pure cache hit with an empty fetch trace. -/
theorem claim4_witness :
    cacheLookup (nickToNameAndEmail envAllFail [] "carol").cache "carol" = some "carol" ∧
    nickToNameAndEmail envAllFail (nickToNameAndEmail envAllFail [] "carol").cache "carol" =
      ⟨.ok "carol", (nickToNameAndEmail envAllFail [] "carol").cache, []⟩ :=
  claim4_memoized envAllFail [] "carol" "carol" (by decide)

/-- Claim C1 counterexample: the claim says the resolver never fails, for
every handle.  With the network down, resolving the uncached handle
"alice" panics (the nil tokenizer of the package list-box fetch is
dereferenced), so the call does not return normally at all. -/
theorem claim1_counterexample :
    (nickToNameAndEmail envTokensDown [] "alice").res = .crash ∧
    (nickToNameAndEmail envTokensDown [] "alice").res ≠ .ok "alice" := by
  decide

/-- Claim C1 amended: provided no source lookup panics — that is, every
page read through the tokenizer (the package list box, and the
label-structured pages of the two secondary lookups) is fetched without a
network error — the resolver always returns a value; and whenever all four
sources are exhausted without a match on a cache miss, the returned value
is the original handle, completely unmodified (and is cached as such). -/
theorem claim1_amended (env : Env) (cache : Cache) (nick : String)
    (hA : nickToNameAndEmailWithUrl nick (env.rawBody .tu) ≠ .crash)
    (hB : nickToNameAndEmailWithUrl nick (env.rawBody .dev) ≠ .crash)
    (hD : nickToNameAndEmailWithUrl nick (env.rawBody .fel) ≠ .crash)
    (hC : nickToNameFromListBox nick (env.tokens .pkg) ≠ .crash)
    (hS : ∀ nm : String, nameToEmailWithUrl nm (env.tokens .tu) ≠ .crash ∧
          nameToEmailWithUrl nm (env.tokens .dev) ≠ .crash) :
    (∃ s, (nickToNameAndEmail env cache nick).res = .ok s) ∧
    (∀ m1 m2 m3 m4 : String,
      cacheLookup cache nick = none →
      nickToNameAndEmailWithUrl nick (env.rawBody .tu) = .goErr m1 →
      nickToNameAndEmailWithUrl nick (env.rawBody .dev) = .goErr m2 →
      nickToNameFromListBox nick (env.tokens .pkg) = .goErr m3 →
      nickToNameAndEmailWithUrl nick (env.rawBody .fel) = .goErr m4 →
      nickToNameAndEmail env cache nick =
        ⟨.ok nick, cacheInsert cache nick nick, [.tu, .dev, .pkg, .fel]⟩) := by
  constructor
  · cases hc : cacheLookup cache nick with
    | some w => exact ⟨w, by simp [nickToNameAndEmail, hc]⟩
    | none =>
      cases h1 : nickToNameAndEmailWithUrl nick (env.rawBody .tu) with
      | ok ne => exact ⟨ne, by simp [nickToNameAndEmail, hc, h1]⟩
      | crash => exact absurd h1 hA
      | goErr m1 =>
        cases h2 : nickToNameAndEmailWithUrl nick (env.rawBody .dev) with
        | ok ne => exact ⟨ne, by simp [nickToNameAndEmail, hc, h1, h2]⟩
        | crash => exact absurd h2 hB
        | goErr m2 =>
          cases h3 : nickToNameFromListBox nick (env.tokens .pkg) with
          | crash => exact absurd h3 hC
          | ok nm =>
            cases h4 : nameToEmailWithUrl nm (env.tokens .tu) with
            | crash => exact absurd h4 (hS nm).1
            | ok em =>
              exact ⟨nm ++ " <" ++ em ++ ">", by simp [nickToNameAndEmail, hc, h1, h2, h3, h4]⟩
            | goErr m3 =>
              cases h5 : nameToEmailWithUrl nm (env.tokens .dev) with
              | crash => exact absurd h5 (hS nm).2
              | ok em =>
                exact ⟨nm ++ " <" ++ em ++ ">",
                       by simp [nickToNameAndEmail, hc, h1, h2, h3, h4, h5]⟩
              | goErr m4 =>
                exact ⟨nm, by simp [nickToNameAndEmail, hc, h1, h2, h3, h4, h5]⟩
          | goErr m3 =>
            cases h6 : nickToNameAndEmailWithUrl nick (env.rawBody .fel) with
            | crash => exact absurd h6 hD
            | ok ne => exact ⟨ne, by simp [nickToNameAndEmail, hc, h1, h2, h3, h6]⟩
            | goErr m4 => exact ⟨nick, by simp [nickToNameAndEmail, hc, h1, h2, h3, h6]⟩
  · intro m1 m2 m3 m4 hc h1 h2 h3 h4
    simp [nickToNameAndEmail, hc, h1, h2, h3, h4]

/-- Claim C1 witness: the amended claim at the concrete environment where
every source completes with a failure — resolving "dave" returns "dave"
itself after consulting all four sources. -/
theorem claim1_witness :
    (∃ s, (nickToNameAndEmail envAllFail [] "dave").res = .ok s) ∧
    nickToNameAndEmail envAllFail [] "dave" =
      ⟨.ok "dave", cacheInsert [] "dave" "dave", [.tu, .dev, .pkg, .fel]⟩ := by
  have h := claim1_amended envAllFail [] "dave" (by decide) (by decide) (by decide) (by decide)
      (fun nm => ⟨fun hcon => (nomatch hcon), fun hcon => (nomatch hcon)⟩)
  exact ⟨h.1, h.2 "Could not retrieve" "Could not retrieve" "Out of tokens" "Could not retrieve"
    rfl rfl rfl rfl rfl⟩
